import Mathlib

/-
Verification of the torrent_free conversion script (src/torrent_free.py).

The script decodes a bencoded torrent file with libtorrent's bdecode,
edits the resulting dictionary (remove the private flag, replace the
trackers, replace the webseeds) and re-encodes it.  We embed the decoded
value tree, the three editing functions and the main dispatch as Lean
functions and prove the specified properties about them.

Byte strings (Python bytes) are embedded as List Nat, one Nat per byte.
Python dictionaries are embedded as association lists with unique keys:
lookup returns the first binding, assignment updates the first binding in
place (keeping its position, as CPython does) or appends a fresh binding
at the end, and deletion removes every binding of the key (for unique-key
dictionaries this is exactly CPython's del).
-/

namespace TorrentFree

/-- A decoded bencode value: integer, byte string, list or dictionary,
mirroring the values libtorrent's bdecode hands back to the script. -/
inductive Bencode where
  | int : Int → Bencode
  | str : List Nat → Bencode
  | list : List Bencode → Bencode
  | dict : List (List Nat × Bencode) → Bencode

/-- Dictionary keys are raw byte strings. -/
abbrev Key := List Nat

/-- A decoded Python dictionary: an association list of byte-string keys. -/
abbrev Dict := List (Key × Bencode)

/-- Lookup of a key: the first binding wins (dictionaries never hold
duplicate keys). Models `torrent[k]` / `torrent.get(k)` / `k in torrent`. -/
def dGet : Dict → Key → Option Bencode
  | [], _ => none
  | (k', v) :: rest, k => if k' = k then some v else dGet rest k

/-- Assignment `torrent[k] = v`: update the first binding of `k` in place,
keeping its position, or append a fresh binding at the end (CPython
insertion-order semantics). -/
def dSet : Dict → Key → Bencode → Dict
  | [], k, v => [(k, v)]
  | (k', v') :: rest, k, v =>
    if k' = k then (k, v) :: rest else (k', v') :: dSet rest k v

/-- Deletion `del torrent[k]`: drop the binding of `k`.  Python
dictionaries have unique keys, so dropping every binding of `k` is
exactly CPython's deletion. -/
def dDel (d : Dict) (k : Key) : Dict :=
  d.filter (fun p => decide (p.1 ≠ k))

/-- Python truthiness of a decoded value: zero integers and empty
strings, lists and dictionaries are falsy. -/
def truthy : Bencode → Bool
  | Bencode.int n => decide (n ≠ 0)
  | Bencode.str s => !s.isEmpty
  | Bencode.list l => !l.isEmpty
  | Bencode.dict d => !d.isEmpty

/-- Truthiness of `torrent.get(k)`: a missing key yields None, which is
falsy; a present key yields its value's truthiness. -/
def truthyGet (t : Dict) (k : Key) : Bool :=
  match dGet t k with
  | none => false
  | some v => truthy v

/-- The byte string b"info". -/
def kInfo : Key := [105, 110, 102, 111]

/-- The byte string b"private". -/
def kPrivate : Key := [112, 114, 105, 118, 97, 116, 101]

/-- The byte string b"announce". -/
def kAnnounce : Key := [97, 110, 110, 111, 117, 110, 99, 101]

/-- The byte string b"announce-list". -/
def kAnnounceList : Key :=
  [97, 110, 110, 111, 117, 110, 99, 101, 45, 108, 105, 115, 116]

/-- The byte string b"url-list". -/
def kUrlList : Key := [117, 114, 108, 45, 108, 105, 115, 116]

/-- The byte string b"files". -/
def kFiles : Key := [102, 105, 108, 101, 115]

/-- The byte string b"name". -/
def kName : Key := [110, 97, 109, 101]

/-- The function remove_private of src/torrent_free.py.  It reads
`torrent[b'info']` (a KeyError when `info` is missing), tests
`b'private' in torrent[b'info']`, deletes the key when present and
returns whether it was present.  A missing or non-dictionary `info`
value is modelled as `none`: the script raises (KeyError, or TypeError
on `del`) or misapplies `in` there, and no claim concerns documents
whose `info` entry is not a dictionary. -/
def remove_private (torrent : Dict) : Option (Bool × Dict) :=
  match dGet torrent kInfo with
  | some (Bencode.dict info) =>
    if (dGet info kPrivate).isSome then
      some (true, dSet torrent kInfo (Bencode.dict (dDel info kPrivate)))
    else
      some (false, torrent)
  | _ => none

/-- The function swap_trackers of src/torrent_free.py, with the global
TRACKERS list made an explicit argument.  When TRACKERS is non-empty it
assigns `torrent[b'announce'] = TRACKERS[0]` and, when TRACKERS has more
than one entry, rebuilds `torrent[b'announce-list']` by appending the
one-element tier [tracker] for each tracker in order (the source sets
the key to [] and appends in a loop; the net effect on the stored value
is the final list).  When TRACKERS is empty, it deletes `announce` and
`announce-list` only when `torrent.get(...)` is truthy, re-testing
`announce-list` after the first deletion, exactly as the source does. -/
def swap_trackers (TRACKERS : List (List Nat)) (torrent : Dict) : Dict :=
  match TRACKERS with
  | tr0 :: rest =>
    let t1 := dSet torrent kAnnounce (Bencode.str tr0)
    if rest.isEmpty then
      t1
    else
      dSet t1 kAnnounceList
        (Bencode.list ((tr0 :: rest).foldl
          (fun acc tracker => acc ++ [Bencode.list [Bencode.str tracker]]) []))
  | [] =>
    if truthyGet torrent kAnnounce || truthyGet torrent kAnnounceList then
      let t1 :=
        if truthyGet torrent kAnnounce then dDel torrent kAnnounce else torrent
      if truthyGet t1 kAnnounceList then dDel t1 kAnnounceList else t1
    else torrent

/-- The function swap_webseeds of src/torrent_free.py, with the global
WEBSEEDS list made an explicit argument.  When WEBSEEDS is non-empty it
reads `torrent[b'info']`; with `b'files'` present it assigns the WEBSEEDS
list verbatim to `url-list`, otherwise it builds `url-list` by appending
`b'%s%s' % (root, name)` — the byte concatenation root ++ name — for each
root in order.  When WEBSEEDS is empty it deletes a present `url-list`.
`none` models the script raising: KeyError when `info` (or, single-file,
`info[b'name']`) is missing, TypeError when `info` is not a dictionary or
`name` is not a byte string.  (In the raising single-file case the source
has already set `url-list` to []; since the process dies with no output,
the partially mutated document is never observable and is not modelled.) -/
def swap_webseeds (WEBSEEDS : List (List Nat)) (torrent : Dict) : Option Dict :=
  match WEBSEEDS with
  | _ :: _ =>
    match dGet torrent kInfo with
    | some (Bencode.dict info) =>
      if (dGet info kFiles).isSome then
        some (dSet torrent kUrlList (Bencode.list (WEBSEEDS.map Bencode.str)))
      else
        match dGet info kName with
        | some (Bencode.str name) =>
          some (dSet torrent kUrlList
            (Bencode.list (WEBSEEDS.foldl
              (fun acc root => acc ++ [Bencode.str (root ++ name)]) [])))
        | _ => none
    | _ => none
  | [] =>
    if (dGet torrent kUrlList).isSome then some (dDel torrent kUrlList)
    else some torrent

/-- The three edits in the fixed order main applies them:
remove_private, then swap_trackers, then swap_webseeds.  `none` models
the script raising partway (no output is produced then). -/
def pipeline (T W : List (List Nat)) (torrent : Dict) : Option Dict :=
  match remove_private torrent with
  | none => none
  | some (_, t1) => swap_webseeds W (swap_trackers T t1)

/-- Modelled from the spec: the error taxonomy of the bencode decoder
(spec §4.1).  The decoder itself is libtorrent's bdecode, not part of
src/, so it is reconstructed here from the spec's grammar.
`unorderedKeys` is never produced: the spec recommends the
lenient-accept, canonical-emit policy, under which any key order is
accepted on decode. -/
inductive DecodeError where
  | malformedInteger
  | truncatedString
  | unorderedKeys
  | unexpectedToken (byte : Nat)
  | trailingData
  | unexpectedEof

/-- ASCII decimal digit test on a byte. -/
def isDigitByte (b : Nat) : Bool := 48 ≤ b && b ≤ 57

/-- Value of a non-empty string of ASCII digit bytes. -/
def digitsToNat (ds : List Nat) : Nat :=
  ds.foldl (fun acc d => 10 * acc + (d - 48)) 0

/-- Modelled from the spec: the digits-and-terminator part of the
integer production `i<ASCII-digits>e` (spec §4.1), entered after the
leading `i` (byte 105) and optional `-` (byte 45) have been consumed.
No leading zeros except the literal `0`, which also excludes `-0`. -/
def parseIntDigits (neg : Bool) (input : List Nat) :
    Except DecodeError (Bencode × List Nat) :=
  let digits := input.takeWhile isDigitByte
  let rest := input.dropWhile isDigitByte
  if digits.isEmpty then Except.error DecodeError.malformedInteger
  else if digits.headD 0 = 48 && (1 < digits.length || neg) then
    Except.error DecodeError.malformedInteger
  else
    match rest with
    | 101 :: rem =>
      let n : Int := digitsToNat digits
      Except.ok (Bencode.int (if neg then -n else n), rem)
    | _ => Except.error DecodeError.malformedInteger

/-- Modelled from the spec: the integer production after its leading
`i`: an optional `-` sign followed by digits and the terminator `e`. -/
def parseInteger (input : List Nat) : Except DecodeError (Bencode × List Nat) :=
  match input with
  | 45 :: rest => parseIntDigits true rest
  | rest => parseIntDigits false rest

/-- Modelled from the spec: the byte-string production
`<length>:<raw bytes>` (spec §4.1), entered at its leading digit.  The
length has no leading zeros (except `0`); fewer remaining bytes than
declared is a truncation error; a non-colon byte after the length is an
unexpected token. -/
def parseByteString (input : List Nat) :
    Except DecodeError (List Nat × List Nat) :=
  let digits := input.takeWhile isDigitByte
  let rest := input.dropWhile isDigitByte
  if digits.headD 0 = 48 && 1 < digits.length then
    Except.error (DecodeError.unexpectedToken 48)
  else
    match rest with
    | 58 :: rem =>
      let len := digitsToNat digits
      if rem.length < len then Except.error DecodeError.truncatedString
      else Except.ok (rem.take len, rem.drop len)
    | b :: _ => Except.error (DecodeError.unexpectedToken b)
    | [] => Except.error DecodeError.unexpectedEof

mutual

/-- Modelled from the spec: one bencode value (spec §4.1), returning the
value and the unconsumed suffix.  Dispatch on the leading byte:
`i` (105) integer, `l` (108) list, `d` (100) dictionary, a digit a byte
string, anything else an unexpected token; an empty input is a
truncation.  Recursion is fuelled; `decode` passes enough fuel that
exhaustion (reported as `unexpectedEof`) is unreachable, and no theorem
below depends on the fuel bound. -/
def decodeVal : Nat → List Nat → Except DecodeError (Bencode × List Nat)
  | 0, _ => Except.error DecodeError.unexpectedEof
  | _ + 1, [] => Except.error DecodeError.unexpectedEof
  | fuel + 1, b :: rest =>
    if b = 105 then parseInteger rest
    else if b = 108 then
      match decodeElems fuel rest with
      | Except.ok (elems, rem) => Except.ok (Bencode.list elems, rem)
      | Except.error e => Except.error e
    else if b = 100 then
      match decodePairs fuel rest with
      | Except.ok (pairs, rem) =>
        Except.ok
          (Bencode.dict (pairs.foldl (fun acc p => dSet acc p.1 p.2) []), rem)
      | Except.error e => Except.error e
    else if isDigitByte b then
      match parseByteString (b :: rest) with
      | Except.ok (s, rem) => Except.ok (Bencode.str s, rem)
      | Except.error e => Except.error e
    else Except.error (DecodeError.unexpectedToken b)

/-- Modelled from the spec: the elements of a list `l<value>*e` after
the leading `l`: zero or more values until the terminator `e`. -/
def decodeElems : Nat → List Nat → Except DecodeError (List Bencode × List Nat)
  | 0, _ => Except.error DecodeError.unexpectedEof
  | _ + 1, [] => Except.error DecodeError.unexpectedEof
  | fuel + 1, b :: rest =>
    if b = 101 then Except.ok ([], rest)
    else
      match decodeVal fuel (b :: rest) with
      | Except.ok (v, rem) =>
        match decodeElems fuel rem with
        | Except.ok (elems, rem2) => Except.ok (v :: elems, rem2)
        | Except.error e => Except.error e
      | Except.error e => Except.error e

/-- Modelled from the spec: the pairs of a dictionary `d<key><value>*e`
after the leading `d`: zero or more byte-string keys each followed by a
value, until the terminator `e`.  Any key order is accepted
(lenient-accept policy). -/
def decodePairs : Nat → List Nat →
    Except DecodeError (List (Key × Bencode) × List Nat)
  | 0, _ => Except.error DecodeError.unexpectedEof
  | _ + 1, [] => Except.error DecodeError.unexpectedEof
  | fuel + 1, b :: rest =>
    if b = 101 then Except.ok ([], rest)
    else if isDigitByte b then
      match parseByteString (b :: rest) with
      | Except.ok (key, rem) =>
        match decodeVal fuel rem with
        | Except.ok (v, rem2) =>
          match decodePairs fuel rem2 with
          | Except.ok (pairs, rem3) => Except.ok ((key, v) :: pairs, rem3)
          | Except.error e => Except.error e
        | Except.error e => Except.error e
      | Except.error e => Except.error e
    else Except.error (DecodeError.unexpectedToken b)

end

/-- Modelled from the spec: the top-level decoder (spec §4.1 / §6):
one complete value, with trailing unconsumed bytes an error.  The fuel
2·length+2 always suffices: each unit of fuel spent without consuming a
byte is preceded by a unit that consumed one. -/
def decode (input : List Nat) : Except DecodeError Bencode :=
  match decodeVal (2 * input.length + 2) input with
  | Except.ok (v, []) => Except.ok v
  | Except.ok (_, _ :: _) => Except.error DecodeError.trailingData
  | Except.error e => Except.error e

/-- Outcome of one conversion, as surfaced by main of
src/torrent_free.py.  `success` carries the document handed to
write_torrent (encoding and file writing are I/O, outside the model);
`notValidTorrent` is the `exit(1)` path, `alreadyPublic` the `exit(2)`
path, and `crash` an uncaught Python exception (no outcome reported,
no output written). -/
inductive Outcome where
  | success (doc : Dict)
  | notValidTorrent
  | alreadyPublic
  | crash

/-- Whether an outcome is the success outcome. -/
def Outcome.isSuccess : Outcome → Bool
  | Outcome.success _ => true
  | _ => false

/-- Whether a decoded value is a dictionary. -/
def isDict : Bencode → Bool
  | Bencode.dict _ => true
  | _ => false

/-- Whether an optional value holds a dictionary. -/
def isDictVal : Option Bencode → Bool
  | some (Bencode.dict _) => true
  | _ => false

/-- The body of main of src/torrent_free.py after bdecode succeeded with
value v: `if not torrent:` reports not-a-valid-torrent on any falsy
value; a truthy non-dictionary crashes at `torrent[b'info']` (TypeError,
or a nonsensical `in` test followed by a KeyError/TypeError downstream —
either way no outcome of the contract is reported); otherwise
remove_private gates the already-public exit unless forced, and the two
swaps run before the document reaches write_torrent. -/
def mainOnValue (T W : List (List Nat)) (v : Bencode) (force : Bool) :
    Outcome :=
  if truthy v = false then Outcome.notValidTorrent
  else
    match v with
    | Bencode.dict torrent =>
      match remove_private torrent with
      | none => Outcome.crash
      | some (hadPrivate, t1) =>
        if !hadPrivate && !force then Outcome.alreadyPublic
        else
          match swap_webseeds W (swap_trackers T t1) with
          | none => Outcome.crash
          | some t2 => Outcome.success t2
    | _ => Outcome.crash

/-- The function main of src/torrent_free.py on the raw input bytes.
The script's `torrent = lt.bdecode(...)` yields a falsy value (None) on
malformed input, which the subsequent `if not torrent:` turns into the
not-a-valid-torrent outcome, so a decode error maps there directly. -/
def mainRun (T W : List (List Nat)) (input : List Nat) (force : Bool) :
    Outcome :=
  match decode input with
  | Except.error _ => Outcome.notValidTorrent
  | Except.ok v => mainOnValue T W v force

/-! Basic algebra of dictionary lookup, assignment and deletion. -/

theorem dGet_dSet (d : Dict) (k : Key) (v : Bencode) (k' : Key) :
    dGet (dSet d k v) k' = if k = k' then some v else dGet d k' := by
  induction d with
  | nil => simp [dGet, dSet]
  | cons p rest ih =>
    obtain ⟨k0, v0⟩ := p
    by_cases h : k0 = k
    · subst h
      by_cases h2 : k0 = k' <;> simp [dSet, dGet, h2]
    · by_cases h2 : k0 = k'
      · subst h2
        have hne : k ≠ k0 := fun hh => h hh.symm
        simp [dSet, dGet, h, hne]
      · simp [dSet, dGet, h, h2, ih]

theorem dDel_cons (k0 : Key) (v0 : Bencode) (rest : Dict) (k : Key) :
    dDel ((k0, v0) :: rest) k =
      if k0 = k then dDel rest k else (k0, v0) :: dDel rest k := by
  by_cases h : k0 = k <;> simp [dDel, List.filter_cons, h]

theorem dGet_dDel (d : Dict) (k k' : Key) :
    dGet (dDel d k) k' = if k = k' then none else dGet d k' := by
  induction d with
  | nil => simp [dGet, dDel]
  | cons p rest ih =>
    obtain ⟨k0, v0⟩ := p
    rw [dDel_cons]
    by_cases h : k0 = k
    · subst h
      rw [if_pos rfl, ih]
      by_cases h2 : k0 = k'
      · subst h2; simp
      · simp [dGet, h2]
    · rw [if_neg h]
      by_cases h2 : k0 = k'
      · subst h2
        have hne : k ≠ k0 := fun hh => h hh.symm
        simp [dGet, hne]
      · simp [dGet, h2, ih]

theorem dGet_some_ne_nil (d : Dict) (k : Key) (v : Bencode)
    (h : dGet d k = some v) : d ≠ [] := by
  intro hd
  subst hd
  simp [dGet] at h

theorem foldl_append_singleton {α β : Type} (f : α → β) (l : List α) :
    ∀ acc : List β,
      l.foldl (fun a x => a ++ [f x]) acc = acc ++ l.map f := by
  induction l with
  | nil => intro acc; simp
  | cons x xs ih => intro acc; simp [ih]

/-! Frame lemmas: each edit touches only its own keys. -/

theorem swap_trackers_dGet_ne (T : List (List Nat)) (t : Dict) (k : Key)
    (h1 : k ≠ kAnnounce) (h2 : k ≠ kAnnounceList) :
    dGet (swap_trackers T t) k = dGet t k := by
  cases T with
  | nil =>
    simp only [swap_trackers]
    split
    · split <;> split <;>
        simp [dGet_dDel, Ne.symm h1, Ne.symm h2]
    · rfl
  | cons tr0 rest =>
    simp only [swap_trackers]
    split <;> simp [dGet_dSet, Ne.symm h1, Ne.symm h2]

theorem swap_webseeds_dGet_ne (W : List (List Nat)) (t t' : Dict) (k : Key)
    (h : swap_webseeds W t = some t') (hk : k ≠ kUrlList) :
    dGet t' k = dGet t k := by
  cases W with
  | nil =>
    simp only [swap_webseeds] at h
    split at h <;> injection h with h <;> subst h
    · simp [dGet_dDel, Ne.symm hk]
    · rfl
  | cons w0 rest =>
    simp only [swap_webseeds] at h
    split at h
    · split at h
      · injection h with h
        subst h
        simp [dGet_dSet, Ne.symm hk]
      · split at h
        · injection h with h
          subst h
          simp [dGet_dSet, Ne.symm hk]
        · exact absurd h (by simp)
    · exact absurd h (by simp)

theorem swap_webseeds_isSome (W : List (List Nat)) (t info : Dict)
    (nm : List Nat) (hinfo : dGet t kInfo = some (Bencode.dict info))
    (hname : dGet info kName = some (Bencode.str nm)) :
    (swap_webseeds W t).isSome = true := by
  cases W with
  | nil =>
    simp only [swap_webseeds]
    split <;> simp
  | cons w0 rest =>
    simp only [swap_webseeds, hinfo]
    split
    · simp
    · simp [hname]

theorem remove_private_present (t info : Dict)
    (hinfo : dGet t kInfo = some (Bencode.dict info))
    (hp : (dGet info kPrivate).isSome = true) :
    remove_private t =
      some (true, dSet t kInfo (Bencode.dict (dDel info kPrivate))) := by
  simp [remove_private, hinfo, hp]

theorem remove_private_absent (t info : Dict)
    (hinfo : dGet t kInfo = some (Bencode.dict info))
    (hp : dGet info kPrivate = none) :
    remove_private t = some (false, t) := by
  simp [remove_private, hinfo, hp]

/-! Claims about the individual edits. -/

/-- C1: for every torrent document, when the configured tracker list T
is non-empty, swap_trackers sets the top-level `announce` key to T[0],
and if T has more than one element it additionally sets `announce-list`
to the list of single-element tiers, one tier per entry of T, in T's
order. -/
theorem swap_trackers_nonempty_sets (tr0 : List Nat)
    (rest : List (List Nat)) (t : Dict) :
    dGet (swap_trackers (tr0 :: rest) t) kAnnounce = some (Bencode.str tr0) ∧
    (rest ≠ [] →
      dGet (swap_trackers (tr0 :: rest) t) kAnnounceList =
        some (Bencode.list ((tr0 :: rest).map
          (fun tracker => Bencode.list [Bencode.str tracker])))) := by
  cases rest with
  | nil =>
    refine ⟨?_, fun h => absurd rfl h⟩
    simp [swap_trackers, dGet_dSet]
  | cons tr1 rest' =>
    have hne : kAnnounceList ≠ kAnnounce := by decide
    refine ⟨?_, fun _ => ?_⟩
    · simp [swap_trackers, dGet_dSet, hne]
    · simp [swap_trackers, dGet_dSet, foldl_append_singleton]

theorem swap_trackers_nonempty_sets_witness :
    dGet (swap_trackers [[65], [66], [67]] []) kAnnounce =
      some (Bencode.str [65]) ∧
    dGet (swap_trackers [[65], [66], [67]] []) kAnnounceList =
      some (Bencode.list [Bencode.list [Bencode.str [65]],
        Bencode.list [Bencode.str [66]], Bencode.list [Bencode.str [67]]]) := by
  have h := swap_trackers_nonempty_sets [65] [[66], [67]] []
  exact ⟨h.1, h.2 (by decide)⟩

/-- C10: when the configured tracker list has exactly one element,
swap_trackers sets `announce` to that element but leaves a pre-existing
`announce-list` unchanged. -/
theorem swap_trackers_single_keeps_list (a : List Nat) (t : Dict)
    (al : Bencode) (h : dGet t kAnnounceList = some al) :
    dGet (swap_trackers [a] t) kAnnounce = some (Bencode.str a) ∧
    dGet (swap_trackers [a] t) kAnnounceList = some al := by
  have hne : kAnnounce ≠ kAnnounceList := by decide
  constructor
  · simp [swap_trackers, dGet_dSet]
  · simp [swap_trackers, dGet_dSet, hne, h]

theorem swap_trackers_single_keeps_list_witness :
    dGet (swap_trackers [[65]] [(kAnnounceList, Bencode.list [])]) kAnnounce =
      some (Bencode.str [65]) ∧
    dGet (swap_trackers [[65]] [(kAnnounceList, Bencode.list [])])
      kAnnounceList = some (Bencode.list []) :=
  swap_trackers_single_keeps_list [65] [(kAnnounceList, Bencode.list [])]
    (Bencode.list []) rfl

/-- C7 counterexample: with an empty tracker list a present `announce`
key bound to the falsy empty byte string is not removed — the document
comes out of swap_trackers unchanged, with `announce` still present. -/
theorem swap_trackers_empty_keeps_falsy :
    dGet [(kAnnounce, Bencode.str [])] kAnnounce = some (Bencode.str []) ∧
    swap_trackers [] [(kAnnounce, Bencode.str [])] =
      [(kAnnounce, Bencode.str [])] ∧
    dGet (swap_trackers [] [(kAnnounce, Bencode.str [])]) kAnnounce =
      some (Bencode.str []) :=
  ⟨rfl, rfl, rfl⟩

/-- C7 (amended): when the configured tracker list is empty,
swap_trackers removes `announce` and `announce-list` exactly when their
stored value is truthy (the source tests `torrent.get(...)`, so a key
present with a falsy value — empty byte string, empty list, integer 0 —
is left in place), and it adds nothing: every other key is unchanged. -/
theorem swap_trackers_empty_removes_truthy (t : Dict) :
    (truthyGet t kAnnounce = true →
      dGet (swap_trackers [] t) kAnnounce = none) ∧
    (truthyGet t kAnnounceList = true →
      dGet (swap_trackers [] t) kAnnounceList = none) ∧
    (truthyGet t kAnnounce = false →
      dGet (swap_trackers [] t) kAnnounce = dGet t kAnnounce) ∧
    (truthyGet t kAnnounceList = false →
      dGet (swap_trackers [] t) kAnnounceList = dGet t kAnnounceList) ∧
    (∀ k, k ≠ kAnnounce → k ≠ kAnnounceList →
      dGet (swap_trackers [] t) k = dGet t k) := by
  have hne : kAnnounce ≠ kAnnounceList := by decide
  have hframe := swap_trackers_dGet_ne [] t
  by_cases ha : truthyGet t kAnnounce = true
  · have hlkeep : truthyGet (dDel t kAnnounce) kAnnounceList =
        truthyGet t kAnnounceList := by
      simp [truthyGet, dGet_dDel, hne]
    by_cases hl : truthyGet t kAnnounceList = true
    · have hcalc : swap_trackers [] t =
          dDel (dDel t kAnnounce) kAnnounceList := by
        simp [swap_trackers, ha, hlkeep, hl]
      refine ⟨fun _ => ?_, fun _ => ?_, fun hf => ?_, fun hf => ?_, hframe⟩
      · simp [hcalc, dGet_dDel, Ne.symm hne]
      · simp [hcalc, dGet_dDel]
      · simp [ha] at hf
      · simp [hl] at hf
    · have hl' : truthyGet t kAnnounceList = false := by
        cases htv : truthyGet t kAnnounceList
        · rfl
        · exact absurd htv hl
      have hcalc : swap_trackers [] t = dDel t kAnnounce := by
        simp [swap_trackers, ha, hlkeep, hl']
      refine ⟨fun _ => ?_, fun hf => ?_, fun hf => ?_, fun _ => ?_, hframe⟩
      · simp [hcalc, dGet_dDel]
      · simp [hl'] at hf
      · simp [ha] at hf
      · simp [hcalc, dGet_dDel, hne]
  · have ha' : truthyGet t kAnnounce = false := by
      cases htv : truthyGet t kAnnounce
      · rfl
      · exact absurd htv ha
    by_cases hl : truthyGet t kAnnounceList = true
    · have hcalc : swap_trackers [] t = dDel t kAnnounceList := by
        simp [swap_trackers, ha', hl]
      refine ⟨fun hf => ?_, fun _ => ?_, fun _ => ?_, fun hf => ?_, hframe⟩
      · simp [ha'] at hf
      · simp [hcalc, dGet_dDel]
      · simp [hcalc, dGet_dDel, Ne.symm hne]
      · simp [hl] at hf
    · have hl' : truthyGet t kAnnounceList = false := by
        cases htv : truthyGet t kAnnounceList
        · rfl
        · exact absurd htv hl
      have hcalc : swap_trackers [] t = t := by
        simp [swap_trackers, ha', hl']
      refine ⟨fun hf => ?_, fun hf => ?_, fun _ => ?_, fun _ => ?_, hframe⟩
      · simp [ha'] at hf
      · simp [hl'] at hf
      · simp [hcalc]
      · simp [hcalc]

theorem swap_trackers_empty_removes_truthy_witness :
    dGet (swap_trackers []
      [(kAnnounce, Bencode.str [117]), (kInfo, Bencode.dict [])])
      kAnnounce = none ∧
    dGet (swap_trackers []
      [(kAnnounce, Bencode.str [117]), (kInfo, Bencode.dict [])])
      kInfo = some (Bencode.dict []) := by
  have h := swap_trackers_empty_removes_truthy
    [(kAnnounce, Bencode.str [117]), (kInfo, Bencode.dict [])]
  exact ⟨h.1 (by decide), h.2.2.2.2 kInfo (by decide) (by decide)⟩

/-- C4: remove_private deletes a present `info.private` key and returns
true (the resulting document has the same entries except that `info` has
lost exactly the `private` binding); with `info.private` absent it
returns false and leaves the document unchanged. -/
theorem remove_private_spec (t info : Dict)
    (hinfo : dGet t kInfo = some (Bencode.dict info)) :
    (∀ v, dGet info kPrivate = some v →
      remove_private t =
        some (true, dSet t kInfo (Bencode.dict (dDel info kPrivate))) ∧
      dGet (dDel info kPrivate) kPrivate = none ∧
      (∀ k, k ≠ kPrivate → dGet (dDel info kPrivate) k = dGet info k) ∧
      (∀ k, k ≠ kInfo →
        dGet (dSet t kInfo (Bencode.dict (dDel info kPrivate))) k =
          dGet t k)) ∧
    (dGet info kPrivate = none → remove_private t = some (false, t)) := by
  constructor
  · intro v hv
    refine ⟨remove_private_present t info hinfo (by simp [hv]), ?_, ?_, ?_⟩
    · simp [dGet_dDel]
    · intro k hk
      simp [dGet_dDel, Ne.symm hk]
    · intro k hk
      simp [dGet_dSet, Ne.symm hk]
  · intro hv
    exact remove_private_absent t info hinfo hv

theorem remove_private_spec_witness :
    remove_private [(kInfo, Bencode.dict [(kPrivate, Bencode.int 1)])] =
      some (true, [(kInfo, Bencode.dict [])]) ∧
    remove_private [(kInfo, Bencode.dict [])] =
      some (false, [(kInfo, Bencode.dict [])]) := by
  have h1 := (remove_private_spec
    [(kInfo, Bencode.dict [(kPrivate, Bencode.int 1)])]
    [(kPrivate, Bencode.int 1)] rfl).1 (Bencode.int 1) rfl
  have h2 := (remove_private_spec [(kInfo, Bencode.dict [])] [] rfl).2 rfl
  exact ⟨h1.1, h2⟩

/-- C9: remove_private is idempotent: after one (successful) application
the second application returns false and the same document. -/
theorem remove_private_idempotent (t : Dict) (p : Bool × Dict)
    (h : remove_private t = some p) :
    remove_private p.2 = some (false, p.2) := by
  unfold remove_private at h
  cases hinfo : dGet t kInfo with
  | none => rw [hinfo] at h; cases h
  | some v =>
    rw [hinfo] at h
    cases v with
    | int n => cases h
    | str s => cases h
    | list l => cases h
    | dict info =>
      dsimp only at h
      by_cases hp : (dGet info kPrivate).isSome = true
      · rw [if_pos hp] at h
        injection h with h
        subst h
        exact remove_private_absent _ (dDel info kPrivate)
          (by simp [dGet_dSet]) (by simp [dGet_dDel])
      · rw [if_neg hp] at h
        injection h with h
        subst h
        refine remove_private_absent t info hinfo ?_
        cases hv : dGet info kPrivate with
        | none => rfl
        | some v => rw [hv] at hp; simp at hp

theorem remove_private_idempotent_witness :
    remove_private [(kInfo, Bencode.dict [])] =
      some (false, [(kInfo, Bencode.dict [])]) :=
  remove_private_idempotent
    [(kInfo, Bencode.dict [(kPrivate, Bencode.int 1)])]
    (true, [(kInfo, Bencode.dict [])]) rfl

/-- C5: for a single-file torrent (no `files` in `info`) with a
byte-string `info.name`, a non-empty webseed list W makes swap_webseeds
set `url-list` to the byte-concatenations root ++ name, one per base URL
of W, in W's order. -/
theorem swap_webseeds_single_file (w0 : List Nat) (ws : List (List Nat))
    (t info : Dict) (nm : List Nat)
    (hinfo : dGet t kInfo = some (Bencode.dict info))
    (hfiles : dGet info kFiles = none)
    (hname : dGet info kName = some (Bencode.str nm)) :
    swap_webseeds (w0 :: ws) t =
      some (dSet t kUrlList (Bencode.list ((w0 :: ws).map
        (fun root => Bencode.str (root ++ nm))))) ∧
    dGet (dSet t kUrlList (Bencode.list ((w0 :: ws).map
        (fun root => Bencode.str (root ++ nm))))) kUrlList =
      some (Bencode.list ((w0 :: ws).map
        (fun root => Bencode.str (root ++ nm)))) := by
  constructor
  · simp [swap_webseeds, hinfo, hfiles, hname, foldl_append_singleton]
  · simp [dGet_dSet]

theorem swap_webseeds_single_file_witness :
    swap_webseeds [[104, 47]]
      [(kInfo, Bencode.dict [(kName, Bencode.str [102])])] =
      some [(kInfo, Bencode.dict [(kName, Bencode.str [102])]),
            (kUrlList, Bencode.list [Bencode.str [104, 47, 102]])] :=
  (swap_webseeds_single_file [104, 47] []
    [(kInfo, Bencode.dict [(kName, Bencode.str [102])])]
    [(kName, Bencode.str [102])] [102] rfl rfl rfl).1

/-- C6: for a multi-file torrent (`files` present in `info`), a
non-empty webseed list W makes swap_webseeds set `url-list` to W
verbatim, with no concatenation or modification of the base URLs. -/
theorem swap_webseeds_multi_file (w0 : List Nat) (ws : List (List Nat))
    (t info : Dict) (fv : Bencode)
    (hinfo : dGet t kInfo = some (Bencode.dict info))
    (hfiles : dGet info kFiles = some fv) :
    swap_webseeds (w0 :: ws) t =
      some (dSet t kUrlList (Bencode.list ((w0 :: ws).map Bencode.str))) ∧
    dGet (dSet t kUrlList (Bencode.list ((w0 :: ws).map Bencode.str)))
      kUrlList = some (Bencode.list ((w0 :: ws).map Bencode.str)) := by
  constructor
  · simp [swap_webseeds, hinfo, hfiles]
  · simp [dGet_dSet]

theorem swap_webseeds_multi_file_witness :
    swap_webseeds [[104, 47]]
      [(kInfo, Bencode.dict [(kFiles, Bencode.list [])])] =
      some [(kInfo, Bencode.dict [(kFiles, Bencode.list [])]),
            (kUrlList, Bencode.list [Bencode.str [104, 47]])] :=
  (swap_webseeds_multi_file [104, 47] []
    [(kInfo, Bencode.dict [(kFiles, Bencode.list [])])]
    [(kFiles, Bencode.list [])] (Bencode.list []) rfl rfl).1

/-! Claims about the whole pipeline and about main. -/

theorem swaps_frame (T W : List (List Nat)) (t1 info1 : Dict)
    (nm : List Nat) (hinfo1 : dGet t1 kInfo = some (Bencode.dict info1))
    (hname1 : dGet info1 kName = some (Bencode.str nm)) :
    (swap_webseeds W (swap_trackers T t1)).isSome = true ∧
    ∀ out, swap_webseeds W (swap_trackers T t1) = some out →
      (∀ k, k ≠ kAnnounce → k ≠ kAnnounceList → k ≠ kUrlList →
        dGet out k = dGet t1 k) ∧
      dGet out kInfo = dGet t1 kInfo := by
  have h2info : dGet (swap_trackers T t1) kInfo =
      some (Bencode.dict info1) := by
    rw [swap_trackers_dGet_ne T t1 kInfo (by decide) (by decide), hinfo1]
  constructor
  · exact swap_webseeds_isSome W _ info1 nm h2info hname1
  · intro out hout
    have hfr : ∀ k, k ≠ kUrlList →
        dGet out k = dGet (swap_trackers T t1) k :=
      fun k hk => swap_webseeds_dGet_ne W _ out k hout hk
    constructor
    · intro k h1 h2 h3
      rw [hfr k h3, swap_trackers_dGet_ne T t1 k h1 h2]
    · rw [hfr kInfo (by decide),
        swap_trackers_dGet_ne T t1 kInfo (by decide) (by decide)]

/-- C2: the full pipeline (remove_private, then swap_trackers, then
swap_webseeds) changes at most the top-level keys `announce`,
`announce-list`, `url-list` and the key `private` inside `info`: it
succeeds, every other top-level entry is unchanged, `info` is still a
dictionary, and every entry of `info` other than `private` is
unchanged. -/
theorem pipeline_frame (T W : List (List Nat)) (t info : Dict)
    (nm : List Nat) (hinfo : dGet t kInfo = some (Bencode.dict info))
    (hname : dGet info kName = some (Bencode.str nm)) :
    (pipeline T W t).isSome = true ∧
    ∀ out, pipeline T W t = some out →
      (∀ k, k ≠ kAnnounce → k ≠ kAnnounceList → k ≠ kUrlList → k ≠ kInfo →
        dGet out k = dGet t k) ∧
      isDictVal (dGet out kInfo) = true ∧
      ∀ info', dGet out kInfo = some (Bencode.dict info') →
        ∀ k, k ≠ kPrivate → dGet info' k = dGet info k := by
  by_cases hp : (dGet info kPrivate).isSome = true
  · have hrp := remove_private_present t info hinfo hp
    have hinfo1 : dGet (dSet t kInfo (Bencode.dict (dDel info kPrivate)))
        kInfo = some (Bencode.dict (dDel info kPrivate)) := by
      simp [dGet_dSet]
    have hname1 : dGet (dDel info kPrivate) kName =
        some (Bencode.str nm) := by
      have hne : kPrivate ≠ kName := by decide
      simp [dGet_dDel, hne, hname]
    have hsw := swaps_frame T W _ (dDel info kPrivate) nm hinfo1 hname1
    have hpip : pipeline T W t =
        swap_webseeds W
          (swap_trackers T (dSet t kInfo (Bencode.dict (dDel info kPrivate)))) := by
      simp [pipeline, hrp]
    rw [hpip]
    refine ⟨hsw.1, fun out hout => ?_⟩
    obtain ⟨hfr, hinfoeq⟩ := hsw.2 out hout
    refine ⟨?_, ?_, ?_⟩
    · intro k h1 h2 h3 h4
      rw [hfr k h1 h2 h3]
      simp [dGet_dSet, Ne.symm h4]
    · rw [hinfoeq, hinfo1]
      rfl
    · intro info' hinfo'
      rw [hinfoeq, hinfo1] at hinfo'
      injection hinfo' with hinfo'
      injection hinfo' with hinfo'
      subst hinfo'
      intro k hk
      simp [dGet_dDel, Ne.symm hk]
  · have hp' : dGet info kPrivate = none := by
      cases hv : dGet info kPrivate with
      | none => rfl
      | some v => rw [hv] at hp; simp at hp
    have hrp := remove_private_absent t info hinfo hp'
    have hsw := swaps_frame T W t info nm hinfo hname
    have hpip : pipeline T W t =
        swap_webseeds W (swap_trackers T t) := by
      simp [pipeline, hrp]
    rw [hpip]
    refine ⟨hsw.1, fun out hout => ?_⟩
    obtain ⟨hfr, hinfoeq⟩ := hsw.2 out hout
    refine ⟨fun k h1 h2 h3 _ => hfr k h1 h2 h3, ?_, ?_⟩
    · rw [hinfoeq, hinfo]
      rfl
    · intro info' hinfo'
      rw [hinfoeq, hinfo] at hinfo'
      injection hinfo' with hinfo'
      injection hinfo' with hinfo'
      subst hinfo'
      intro k _
      rfl

theorem pipeline_frame_witness :
    dGet (match pipeline [[65]] [[104]]
        [([99], Bencode.str [122]),
         (kInfo, Bencode.dict [(kName, Bencode.str [102]),
           (kPrivate, Bencode.int 1), ([100], Bencode.int 7)])] with
      | some out => out
      | none => []) [99] = some (Bencode.str [122]) := by
  have h := pipeline_frame [[65]] [[104]]
    [([99], Bencode.str [122]),
     (kInfo, Bencode.dict [(kName, Bencode.str [102]),
       (kPrivate, Bencode.int 1), ([100], Bencode.int 7)])]
    [(kName, Bencode.str [102]), (kPrivate, Bencode.int 1),
     ([100], Bencode.int 7)] [102] rfl rfl
  have h2 := (h.2 [([99], Bencode.str [122]),
    (kInfo, Bencode.dict [(kName, Bencode.str [102]),
      ([100], Bencode.int 7)]),
    (kAnnounce, Bencode.str [65]),
    (kUrlList, Bencode.list [Bencode.str [104, 102]])] rfl).1
    [99] (by decide) (by decide) (by decide) (by decide)
  exact h2

/-- C8: a well-formed torrent document whose `info` lacks `private`
yields the already-public outcome when force is not set, and a
successful conversion when force is set. -/
theorem main_already_public_gate (T W : List (List Nat)) (t info : Dict)
    (nm : List Nat)
    (hinfo : dGet t kInfo = some (Bencode.dict info))
    (hname : dGet info kName = some (Bencode.str nm))
    (hpriv : dGet info kPrivate = none) :
    mainOnValue T W (Bencode.dict t) false = Outcome.alreadyPublic ∧
    (mainOnValue T W (Bencode.dict t) true).isSuccess = true := by
  have htr : truthy (Bencode.dict t) = true := by
    have hne := dGet_some_ne_nil t kInfo _ hinfo
    cases t with
    | nil => exact absurd rfl hne
    | cons p rest => rfl
  have hrp := remove_private_absent t info hinfo hpriv
  constructor
  · simp [mainOnValue, htr, hrp]
  · have hs := (swaps_frame T W t info nm hinfo hname).1
    cases hsw : swap_webseeds W (swap_trackers T t) with
    | none => rw [hsw] at hs; simp at hs
    | some t2 => simp [mainOnValue, htr, hrp, hsw, Outcome.isSuccess]

theorem main_already_public_gate_witness :
    mainOnValue [] []
      (Bencode.dict [(kInfo, Bencode.dict [(kName, Bencode.str [102])])])
      false = Outcome.alreadyPublic ∧
    (mainOnValue [] []
      (Bencode.dict [(kInfo, Bencode.dict [(kName, Bencode.str [102])])])
      true).isSuccess = true :=
  main_already_public_gate [] []
    [(kInfo, Bencode.dict [(kName, Bencode.str [102])])]
    [(kName, Bencode.str [102])] [102] rfl rfl rfl

/-- C3 counterexample: the input b"i5e" (bytes [105, 53, 101]) decodes
to the non-dictionary value 5, yet the conversion does not report the
not-a-valid-torrent outcome: the value is truthy, so it passes the
`if not torrent:` test and the script crashes at `torrent[b'info']`. -/
theorem main_nondict_crashes :
    decode [105, 53, 101] = Except.ok (Bencode.int 5) ∧
    isDict (Bencode.int 5) = false ∧
    mainRun [] [] [105, 53, 101] false = Outcome.crash ∧
    Outcome.crash ≠ Outcome.notValidTorrent :=
  ⟨rfl, rfl, rfl, fun h => Outcome.noConfusion h⟩

/-- C3 (amended): malformed bencode input reports the
not-a-valid-torrent outcome; an input whose decoded top-level value is
not a Dictionary never yields a successful conversion, but it reports
the not-a-valid-torrent outcome only when the value is falsy (integer 0,
empty string, empty list) — a truthy non-Dictionary value crashes the
script with an uncaught exception instead of reporting the outcome. -/
theorem main_decode_gate (T W : List (List Nat)) (input : List Nat)
    (force : Bool) :
    (∀ e, decode input = Except.error e →
      mainRun T W input force = Outcome.notValidTorrent) ∧
    (∀ v, decode input = Except.ok v → isDict v = false →
      mainRun T W input force =
        (if truthy v = true then Outcome.crash
         else Outcome.notValidTorrent) ∧
      (mainRun T W input force).isSuccess = false) := by
  constructor
  · intro e he
    simp [mainRun, he]
  · intro v hv hd
    have hmain : mainRun T W input force = mainOnValue T W v force := by
      simp [mainRun, hv]
    rw [hmain]
    by_cases ht : truthy v = true
    · have hcrash : mainOnValue T W v force = Outcome.crash := by
        cases v with
        | dict d => simp [isDict] at hd
        | int n => simp [mainOnValue, ht]
        | str s => simp [mainOnValue, ht]
        | list l => simp [mainOnValue, ht]
      rw [hcrash, if_pos ht]
      exact ⟨rfl, rfl⟩
    · have ht' : truthy v = false := by
        cases htv : truthy v
        · rfl
        · exact absurd htv ht
      have hnv : mainOnValue T W v force = Outcome.notValidTorrent := by
        simp [mainOnValue, ht']
      rw [hnv, if_neg ht]
      exact ⟨rfl, rfl⟩

theorem main_decode_gate_witness :
    mainRun [] [] [120] false = Outcome.notValidTorrent ∧
    mainRun [] [] [105, 53, 101] false =
      (if truthy (Bencode.int 5) = true then Outcome.crash
       else Outcome.notValidTorrent) := by
  have h1 := (main_decode_gate [] [] [120] false).1
    (DecodeError.unexpectedToken 120) rfl
  have h2 := ((main_decode_gate [] [] [105, 53, 101] false).2
    (Bencode.int 5) rfl rfl).1
  exact ⟨h1, h2⟩

end TorrentFree
